import Mathlib

/-
Verification of src/deploy/functions/cel.ts: the CEL-subset expression
resolver for deployment parameters.

The source classifies an expression string with six JavaScript regular
expressions and resolves it against a table of parameter values.  The
embedding below models exactly those regular expressions (sequences of
literal runs and greedy one-or-more capture groups, with the leftmost-match
plus greedy-backtracking semantics of JavaScript exec), the JavaScript
ToNumber conversion used by the unary plus in resolveLiteral (with exact
rational arithmetic in place of IEEE-754 rounding, which no claim here
depends on), and each resolver function of the source, line by line.
Failures are Except values: FirebaseError throws become CelError.firebase
with the exact message text of the source, and the runtime TypeError that
JavaScript raises when a property of undefined is read becomes
CelError.typeError.
-/

/-- The whitespace class of JavaScript regular expressions (the set matched
by a backslash-s class) and of string trimming in ToNumber: ASCII blanks,
no-break space, the Unicode space separators, line separators and BOM. -/
def jsWhitespace (c : Char) : Bool :=
  c == ' ' || c == '\t' || c == '\n' || c == Char.ofNat 11 || c == Char.ofNat 12 ||
  c == '\r' || c == Char.ofNat 0xa0 || c == Char.ofNat 0x1680 ||
  (0x2000 ≤ c.toNat && c.toNat ≤ 0x200a) || c == Char.ofNat 0x2028 ||
  c == Char.ofNat 0x2029 || c == Char.ofNat 0x202f || c == Char.ofNat 0x205f ||
  c == Char.ofNat 0x3000 || c == Char.ofNat 0xfeff

/-- The class matched by backslash-S in a JavaScript regular expression:
any character that is not JavaScript whitespace. -/
def jsNonSpace (c : Char) : Bool := ! jsWhitespace c

/-- The class matched by the dot in a JavaScript regular expression:
any character except the four line terminators. -/
def jsDotChar (c : Char) : Bool :=
  ! (c == '\n' || c == '\r' || c == Char.ofNat 0x2028 || c == Char.ofNat 0x2029)

/-- Length of the longest prefix of a character list all of whose
characters satisfy the predicate. -/
def runLen (p : Char → Bool) : List Char → Nat
  | [] => 0
  | c :: t => if p c then runLen p t + 1 else 0

/-- One element of a regular-expression pattern as the source uses them:
a literal character run, a greedy capture of one or more non-whitespace
characters, or a greedy capture of one or more non-line-terminator
characters.  The six regular expressions of the source are sequences of
these three element kinds only. -/
inductive RE
  | lit (t : List Char)
  | capNonSpace
  | capAny

/-- Loop of the greedy capture: try capture lengths from i downwards and
hand the remaining suffix to the continuation matching the rest of the
pattern; the first length at which the rest matches wins.  This is exactly
the backtracking priority of a greedy one-or-more group in JavaScript. -/
def tryCaps (k : List Char → Option (List (List Char))) (s : List Char) :
    Nat → Option (List (List Char))
  | 0 => none
  | j + 1 =>
    match k (s.drop (j + 1)) with
    | some caps => some (s.take (j + 1) :: caps)
    | none => tryCaps k s j

/-- Match a pattern at the start of a character list, returning the list of
captured groups in order.  The match may end before the end of the input,
as a JavaScript regular expression match does. -/
def matchSeq : List RE → List Char → Option (List (List Char))
  | [], _ => some []
  | .lit t :: rest, s => if t.isPrefixOf s then matchSeq rest (s.drop t.length) else none
  | .capNonSpace :: rest, s => tryCaps (matchSeq rest) s (runLen jsNonSpace s)
  | .capAny :: rest, s => tryCaps (matchSeq rest) s (runLen jsDotChar s)

/-- Unanchored search, leftmost match first: exactly the behaviour of exec
on a JavaScript regular expression without flags. -/
def execSeq (p : List RE) : List Char → Option (List (List Char))
  | [] => matchSeq p []
  | c :: t =>
    match matchSeq p (c :: t) with
    | some caps => some caps
    | none => execSeq p t

/-- exec on strings: the captured groups (match index 1, 2, ...) of the
leftmost match, or none when the pattern matches nowhere. -/
def execRegex (p : List RE) (s : String) : Option (List String) :=
  (execSeq p s.data).map (fun caps => caps.map (fun l => String.mk l))

/-- Regular expression for the identity shape of the source. -/
def identityRegexp : List RE :=
  [.lit ("\x7b\x7b params.".data), .capNonSpace, .lit (" \x7d\x7d".data)]

/-- Regular expression for the equality shape of the source. -/
def equalityRegexp : List RE :=
  [.lit ("\x7b\x7b params.".data), .capNonSpace, .lit (" == ".data), .capAny,
   .lit (" \x7d\x7d".data)]

/-- Regular expression for the dual-equality shape of the source. -/
def dualEqualityRegexp : List RE :=
  [.lit ("\x7b\x7b params.".data), .capNonSpace, .lit (" == params.".data), .capNonSpace,
   .lit (" \x7d\x7d".data)]

/-- Regular expression for the ternary shape of the source.  Note that the
source pattern ends with a single closing brace, not two. -/
def ternaryRegexp : List RE :=
  [.lit ("\x7b\x7b params.".data), .capNonSpace, .lit (" == ".data), .capAny,
   .lit (" ? ".data), .capAny, .lit (" : ".data), .capAny, .lit (" \x7d".data)]

/-- Regular expression for the literal-ternary shape of the source.  It
also ends with a single closing brace. -/
def literalTernaryRegexp : List RE :=
  [.lit ("\x7b\x7b params.".data), .capNonSpace, .lit (" ? ".data), .capAny,
   .lit (" : ".data), .capAny, .lit (" \x7d".data)]

/-- Regular expression recognizing a parameter reference inside a field. -/
def paramRegexp : List RE := [.lit ("params.".data), .capNonSpace]

attribute [local semireducible] Rat.mul Rat.inv Rat.add Rat.sub

/-- A JavaScript number as far as this file needs it: an exact rational in
place of a finite double (no claim settled here depends on IEEE-754
rounding), or an infinity, or NaN. -/
inductive JsNum
  | num (q : Rat)
  | posInf
  | negInf
  | nan
deriving DecidableEq

/-- Strict equality of JavaScript numbers: NaN is equal to nothing,
including itself; finite values compare as rationals. -/
def jsStrictEqNum : JsNum → JsNum → Bool
  | .num a, .num b => a == b
  | .posInf, .posInf => true
  | .negInf, .negInf => true
  | _, _ => false

/-- Numeric value of a list of decimal digit characters. -/
def natOfDigits (l : List Char) : Nat :=
  l.foldl (fun a c => a * 10 + (c.toNat - 48)) 0

/-- Ten to a natural power, as a rational. -/
def tenPowN : Nat → Rat
  | 0 => 1
  | n + 1 => tenPowN n * 10

/-- Scale a rational by ten to an integer power. -/
def applyExp (q : Rat) : Int → Rat
  | .ofNat n => q * tenPowN n
  | .negSucc n => q / tenPowN (n + 1)

/-- Exponent digits of a decimal literal: all characters must be digits and
there must be at least one. -/
def parseExpDigits (l : List Char) (pos : Bool) : Option Int :=
  if l ≠ [] ∧ l.all Char.isDigit then
    some (if pos then (natOfDigits l : Int) else -(natOfDigits l : Int))
  else none

/-- The exponent part of a decimal literal, which must consume the whole
remaining text: empty means exponent zero; otherwise e or E, an optional
sign, and at least one digit. -/
def parseExpPart : List Char → Option Int
  | [] => some 0
  | c :: r =>
    if c == 'e' || c == 'E' then
      match r with
      | '+' :: r2 => parseExpDigits r2 true
      | '-' :: r2 => parseExpDigits r2 false
      | r2 => parseExpDigits r2 true
    else none

/-- An unsigned decimal literal of the ToNumber grammar: integer digits, an
optional dot with optional fraction digits (at least one digit in total),
and an optional exponent part; the whole list must be consumed. -/
def parseUnsignedDec (l : List Char) : Option Rat :=
  let ip := l.takeWhile Char.isDigit
  let r1 := l.dropWhile Char.isDigit
  match r1 with
  | '.' :: r2 =>
    let fp := r2.takeWhile Char.isDigit
    let r3 := r2.dropWhile Char.isDigit
    if ip = [] ∧ fp = [] then none
    else
      (parseExpPart r3).map fun e =>
        applyExp (mkRat (Int.ofNat (natOfDigits ip * 10 ^ fp.length + natOfDigits fp))
          (10 ^ fp.length)) e
  | _ =>
    if ip = [] then none
    else (parseExpPart r1).map fun e => applyExp (mkRat (Int.ofNat (natOfDigits ip)) 1) e

/-- Digit value of a character in a given base, when it is a digit of that
base (base 16 accepts both letter cases). -/
def baseDigitVal (base : Nat) (c : Char) : Option Nat :=
  let v : Option Nat :=
    if '0' ≤ c ∧ c ≤ '9' then some (c.toNat - 48)
    else if 'a' ≤ c ∧ c ≤ 'f' then some (c.toNat - 87)
    else if 'A' ≤ c ∧ c ≤ 'F' then some (c.toNat - 55)
    else none
  match v with
  | some d => if d < base then some d else none
  | none => none

/-- Value of a non-empty digit run in a given base; none when empty or when
any character is not a digit of the base. -/
def parseBaseDigits (base : Nat) (l : List Char) : Option Nat :=
  match l with
  | [] => none
  | _ =>
    l.foldl (fun acc c =>
      match acc, baseDigitVal base c with
      | some a, some d => some (a * base + d)
      | _, _ => none) (some 0)

/-- The non-decimal integer literals of the ToNumber grammar: 0x or 0X hex,
0o or 0O octal, 0b or 0B binary; no sign is permitted on them. -/
def parseNonDecimal (l : List Char) : Option Rat :=
  match l with
  | '0' :: c :: r =>
    if c == 'x' || c == 'X' then (parseBaseDigits 16 r).map fun n => mkRat (Int.ofNat n) 1
    else if c == 'o' || c == 'O' then (parseBaseDigits 8 r).map fun n => mkRat (Int.ofNat n) 1
    else if c == 'b' || c == 'B' then (parseBaseDigits 2 r).map fun n => mkRat (Int.ofNat n) 1
    else none
  | _ => none

/-- Strip JavaScript whitespace from both ends of a character list. -/
def trimJs (l : List Char) : List Char :=
  ((l.dropWhile jsWhitespace).reverse.dropWhile jsWhitespace).reverse

/-- An unsigned numeric literal with the sign already stripped: the word
Infinity, or an unsigned decimal literal; anything else is NaN. -/
def unsignedNum (l : List Char) (neg : Bool) : JsNum :=
  if l = ("Infinity".data) then (if neg then .negInf else .posInf)
  else
    match parseUnsignedDec l with
    | some q => .num (if neg then -q else q)
    | none => .nan

/-- The ToNumber conversion JavaScript applies to a string under the unary
plus: trim whitespace; an empty remainder is zero; then a non-decimal
integer literal or an optionally signed decimal literal or Infinity;
anything else is NaN. -/
def toNumber (s : String) : JsNum :=
  let t := trimJs s.data
  if t = [] then .num 0
  else
    match parseNonDecimal t with
    | some q => .num q
    | none =>
      match t with
      | '+' :: r => unsignedNum r false
      | '-' :: r => unsignedNum r true
      | r => unsignedNum r false

/-- The Literal type of the source: a resolved value of exactly one of the
three primitive kinds. -/
inductive Literal
  | str (s : String)
  | num (n : JsNum)
  | bool (b : Bool)
deriving DecidableEq

/-- The type L of the source: the three wanted-type tags. -/
inductive LType
  | string
  | number
  | boolean
deriving DecidableEq

/-- Runtime kind of a Literal. -/
def kindOf : Literal → LType
  | .str _ => .string
  | .num _ => .number
  | .bool _ => .boolean

/-- Strict equality of JavaScript values as used by the comparisons of the
source: values of different runtime kinds are never equal; same-kind values
compare componentwise (for numbers with NaN unequal to itself). -/
def jsStrictEq : Literal → Literal → Bool
  | .str a, .str b => a == b
  | .num a, .num b => jsStrictEqNum a b
  | .bool a, .bool b => a == b
  | _, _ => false

/-- Modelled from the spec: the ParamValue class is imported from the
params module, which is not part of the sources provided; the spec
describes it as an opaque value carrying three boolean legality flags
(legal-as-string, legal-as-number, legal-as-boolean) and three accessor
operations (as-string, as-number, as-boolean), each valid to call only when
its corresponding legality flag is true.  The accessors are modelled as
stored values of the corresponding types. -/
structure ParamValue where
  legalString : Bool
  legalNumber : Bool
  legalBoolean : Bool
  asString : String
  asNumber : JsNum
  asBoolean : Bool

/-- The parameter table: the source takes a Record from names to
ParamValue, on which an absent key reads as undefined. -/
abbrev Params : Type := String → Option ParamValue

/-- A failure of a resolution: a FirebaseError the source throws with a
message, or the TypeError the JavaScript runtime raises when a property of
undefined is read. -/
inductive CelError
  | firebase (msg : String)
  | typeError (msg : String)
deriving DecidableEq

/-- Decidable equality of resolution results, so that concrete resolutions
can be settled by decide. -/
instance {e a : Type} [DecidableEq e] [DecidableEq a] : DecidableEq (Except e a) :=
  fun x y =>
    match x, y with
    | .error u, .error v =>
      match decEq u v with
      | isTrue h => isTrue (by rw [h])
      | isFalse h => isFalse (fun hh => h (by injection hh))
    | .ok u, .ok v =>
      match decEq u v with
      | isTrue h => isTrue (by rw [h])
      | isFalse h => isFalse (fun hh => h (by injection hh))
    | .error _, .ok _ => isFalse (fun hh => Except.noConfusion hh)
    | .ok _, .error _ => isFalse (fun hh => Except.noConfusion hh)

/-- Name of the legality-flag property that assertType reads first for a
given wanted type; it is the property whose read crashes when the value is
undefined. -/
def flagName : LType → String
  | .string => "legalString"
  | .number => "legalNumber"
  | .boolean => "legalBoolean"

/-- Printed name of a wanted type, as string interpolation renders it in
the error messages of the source. -/
def ltypeName : LType → String
  | .string => "string"
  | .number => "number"
  | .boolean => "boolean"

/-- assertType of the source: fail with the illegal-type-coercion
FirebaseError when the legality flag for the wanted type is false. -/
def assertType (wantType : LType) (paramName : String) (paramValue : ParamValue) :
    Except CelError Unit :=
  let legal : Bool :=
    match wantType with
    | .string => paramValue.legalString
    | .number => paramValue.legalNumber
    | .boolean => paramValue.legalBoolean
  if legal then .ok ()
  else .error (.firebase ("illegal type coercion of param " ++ paramName ++ " to type " ++
    ltypeName wantType))

/-- readParamValue of the source: assert the legality flag for the wanted
type, then return the value of the matching accessor. -/
def readParamValue (wantType : LType) (paramName : String) (paramValue : ParamValue) :
    Except CelError Literal :=
  match assertType wantType paramName paramValue with
  | .error e => .error e
  | .ok _ =>
    match wantType with
    | .string => .ok (.str paramValue.asString)
    | .number => .ok (.num paramValue.asNumber)
    | .boolean => .ok (.bool paramValue.asBoolean)

/-- resolveLiteral of the source: reject any text containing a parameter
reference; then coerce by wanted type.  A number goes through ToNumber and
is rejected exactly when that yields NaN; a string must begin and end with
a double quote and is returned with its first and last characters removed,
as the JavaScript slice call does; a boolean must be exactly the word true
or the word false.  The missing space in the boolean error message is in
the source. -/
def resolveLiteral (wantType : LType) (value : String) : Except CelError Literal :=
  match execRegex paramRegexp value with
  | some _ => .error (.firebase ("CEL tried to evaluate param." ++ value ++
      " in a context which only permits literal values"))
  | none =>
    match wantType with
    | .number =>
      match toNumber value with
      | .nan => .error (.firebase ("CEL literal " ++ value ++ " does not seem to be a number"))
      | n => .ok (.num n)
    | .string =>
      if ("\"".data).isPrefixOf value.data && ("\"".data).isSuffixOf value.data then
        .ok (.str (String.mk ((value.data.drop 1).dropLast)))
      else
        .error (.firebase ("CEL literal " ++ value ++
          " does not seem to be a \"-delimited string"))
    | .boolean =>
      if value = "true" then .ok (.bool true)
      else if value = "false" then .ok (.bool false)
      else .error (.firebase ("CEL literal " ++ value ++
        "does not seem to be a true/false boolean"))

/-- resolveParamOrLiteral of the source: a field matching the parameter
reference pattern is read as the captured parameter; the source does not
check the table for the name here, so an absent name flows into
readParamValue as undefined and the first legality-flag read raises a
TypeError, modelled as CelError.typeError.  A field not matching the
pattern is coerced as a literal. -/
def resolveParamOrLiteral (wantType : LType) (field : String) (params : Params) :
    Except CelError Literal :=
  match execRegex paramRegexp field with
  | none => resolveLiteral wantType field
  | some caps =>
    match params (caps.getD 0 "") with
    | none => .error (.typeError ("Cannot read properties of undefined (reading " ++
        flagName wantType ++ ")"))
    | some paramValue => readParamValue wantType (caps.getD 0 "") paramValue

/-- resolveIdentity of the source. -/
def resolveIdentity (wantType : LType) (expr : String) (params : Params) :
    Except CelError Literal :=
  match execRegex identityRegexp expr with
  | none => .error (.firebase ("malformed CEL identity expression '" ++ expr ++ "'"))
  | some caps =>
    match params (caps.getD 0 "") with
    | none => .error (.firebase ("CEL identity expression '" ++ expr ++
        "' was not resolvable to a param"))
    | some value => readParamValue wantType (caps.getD 0 "") value

/-- resolveEquality of the source: infer the type of the left parameter by
the first true legality flag in the order string, number, boolean; coerce
the right-hand capture to that type; compare with strict equality. -/
def resolveEquality (expr : String) (params : Params) : Except CelError Bool :=
  match execRegex equalityRegexp expr with
  | none => .error (.firebase ("malformed CEL equality expression '" ++ expr ++ "'"))
  | some caps =>
    match params (caps.getD 0 "") with
    | none => .error (.firebase ("CEL equality expression '" ++ expr ++
        "' references missing param " ++ caps.getD 0 ""))
    | some lhsVal =>
      if lhsVal.legalString then
        match resolveLiteral .string (caps.getD 1 "") with
        | .error e => .error e
        | .ok rhs => .ok (jsStrictEq (.str lhsVal.asString) rhs)
      else if lhsVal.legalNumber then
        match resolveLiteral .number (caps.getD 1 "") with
        | .error e => .error e
        | .ok rhs => .ok (jsStrictEq (.num lhsVal.asNumber) rhs)
      else if lhsVal.legalBoolean then
        match resolveLiteral .boolean (caps.getD 1 "") with
        | .error e => .error e
        | .ok rhs => .ok (jsStrictEq (.bool lhsVal.asBoolean) rhs)
      else
        .error (.firebase ("could not infer type of param " ++ caps.getD 0 "" ++
          " used in equality operation"))

/-- resolveDualEquality of the source: infer the type of the left parameter
by flag priority, require the same flag on the right parameter, compare the
two accessor values.  The missing-right-parameter error message names the
left parameter; that repetition is in the source. -/
def resolveDualEquality (expr : String) (params : Params) : Except CelError Bool :=
  match execRegex dualEqualityRegexp expr with
  | none => .error (.firebase ("malformed CEL equality expression '" ++ expr ++ "'"))
  | some caps =>
    match params (caps.getD 0 "") with
    | none => .error (.firebase ("CEL equality expression '" ++ expr ++
        "' references missing param " ++ caps.getD 0 ""))
    | some lhsVal =>
      match params (caps.getD 1 "") with
      | none => .error (.firebase ("CEL equality expression '" ++ expr ++
          "' references missing param " ++ caps.getD 0 ""))
      | some rhsVal =>
        if lhsVal.legalString then
          if ! rhsVal.legalString then
            .error (.firebase ("CEL equality expression " ++ expr ++
              " has type mismatch between the operands"))
          else .ok (lhsVal.asString == rhsVal.asString)
        else if lhsVal.legalNumber then
          if ! rhsVal.legalNumber then
            .error (.firebase ("CEL equality expression " ++ expr ++
              " has type mismatch between the operands"))
          else .ok (jsStrictEqNum lhsVal.asNumber rhsVal.asNumber)
        else if lhsVal.legalBoolean then
          if ! rhsVal.legalBoolean then
            .error (.firebase ("CEL equality expression " ++ expr ++
              " has type mismatch between the operands"))
          else .ok (lhsVal.asBoolean == rhsVal.asBoolean)
        else
          .error (.firebase ("could not infer type of param " ++ caps.getD 0 "" ++
            " used in equality operation"))

/-- The synthetic equality expression resolveTernary builds from the first
two captures of the ternary pattern. -/
def syntheticEquality (name rhsText : String) : String :=
  "\x7b\x7b params." ++ name ++ " == " ++ rhsText ++ " \x7d\x7d"

/-- resolveTernary of the source: delegate the condition to resolveEquality
on the synthetic equality expression, then resolve the selected branch by
the param-or-literal rule at the wanted type. -/
def resolveTernary (wantType : LType) (expr : String) (params : Params) :
    Except CelError Literal :=
  match execRegex ternaryRegexp expr with
  | none => .error (.firebase ("malformed CEL ternary expression '" ++ expr ++ "'"))
  | some caps =>
    match resolveEquality (syntheticEquality (caps.getD 0 "") (caps.getD 1 "")) params with
    | .error e => .error e
    | .ok condTrue =>
      if condTrue then resolveParamOrLiteral wantType (caps.getD 2 "") params
      else resolveParamOrLiteral wantType (caps.getD 3 "") params

/-- resolveLiteralTernary of the source: the condition parameter must be
present and carry the boolean legality flag; its boolean accessor selects
the branch, resolved by the param-or-literal rule at the wanted type. -/
def resolveLiteralTernary (wantType : LType) (expr : String) (params : Params) :
    Except CelError Literal :=
  match execRegex literalTernaryRegexp expr with
  | none => .error (.firebase ("malformed CEL ternary expression '" ++ expr ++ "'"))
  | some caps =>
    match params (caps.getD 0 "") with
    | none => .error (.firebase ("CEL ternary expression '" ++ expr ++
        "' references missing param " ++ caps.getD 0 ""))
    | some paramValue =>
      if ! paramValue.legalBoolean then
        .error (.firebase ("CEL ternary expression '" ++ expr ++
          "' is conditional on non-boolean param " ++ caps.getD 0 ""))
      else if paramValue.asBoolean then resolveParamOrLiteral wantType (caps.getD 1 "") params
      else resolveParamOrLiteral wantType (caps.getD 2 "") params

/-- Shape test of the source: the identity pattern matches somewhere in the
string. -/
def isIdentityExpression (value : String) : Bool := (execRegex identityRegexp value).isSome

/-- Shape test of the source: the equality pattern matches somewhere. -/
def isEqualityExpression (value : String) : Bool := (execRegex equalityRegexp value).isSome

/-- Shape test of the source: the dual-equality pattern matches somewhere. -/
def isDualEqualityExpression (value : String) : Bool :=
  (execRegex dualEqualityRegexp value).isSome

/-- Shape test of the source: the ternary pattern matches somewhere. -/
def isTernaryExpression (value : String) : Bool := (execRegex ternaryRegexp value).isSome

/-- Shape test of the source: the literal-ternary pattern matches
somewhere. -/
def isLiteralTernaryExpression (value : String) : Bool :=
  (execRegex literalTernaryRegexp value).isSome

/-- resolveExpression of the source: test the five shapes in the fixed
order identity, ternary, literal-ternary, dual-equality, equality, dispatch
to the resolver of the first matching shape, and fail with the
unsupported-form error when none matches.  The boolean results of the two
equality resolvers are returned as boolean Literals, as TypeScript widens
them into the Literal union. -/
def resolveExpression (wantType : LType) (expr : String) (params : Params) :
    Except CelError Literal :=
  if isIdentityExpression expr then resolveIdentity wantType expr params
  else if isTernaryExpression expr then resolveTernary wantType expr params
  else if isLiteralTernaryExpression expr then resolveLiteralTernary wantType expr params
  else if isDualEqualityExpression expr then (resolveDualEquality expr params).map Literal.bool
  else if isEqualityExpression expr then (resolveEquality expr params).map Literal.bool
  else .error (.firebase ("CEL expression '" ++ expr ++ "' is of an unsupported form"))

/-- A parameter value that is legal only as a string. -/
def pvString (s : String) : ParamValue :=
  { legalString := true, legalNumber := false, legalBoolean := false,
    asString := s, asNumber := .nan, asBoolean := false }

/-- A parameter value that is legal only as a number. -/
def pvNumber (q : Rat) : ParamValue :=
  { legalString := false, legalNumber := true, legalBoolean := false,
    asString := "", asNumber := .num q, asBoolean := false }

/-- A parameter value that is legal only as a boolean. -/
def pvBoolean (b : Bool) : ParamValue :=
  { legalString := false, legalNumber := false, legalBoolean := true,
    asString := "", asNumber := .nan, asBoolean := b }

/-- A successful readParamValue returns a literal of the wanted kind. -/
theorem readParamValue_kind {wt : LType} {n : String} {v : ParamValue} {lit : Literal}
    (h : readParamValue wt n v = .ok lit) : kindOf lit = wt := by
  cases wt <;> simp only [readParamValue, assertType] at h <;> split at h <;>
    first
      | exact Except.noConfusion h
      | (injection h with h; subst h; rfl)

/-- A successful resolveLiteral returns a literal of the wanted kind. -/
theorem resolveLiteral_kind {wt : LType} {v : String} {lit : Literal}
    (h : resolveLiteral wt v = .ok lit) : kindOf lit = wt := by
  unfold resolveLiteral at h
  split at h
  · exact Except.noConfusion h
  · cases wt <;> (repeat' split at h) <;>
      first
        | exact Except.noConfusion h
        | (injection h with h; subst h; rfl)
        | contradiction

/-- A successful resolveParamOrLiteral returns a literal of the wanted
kind. -/
theorem resolveParamOrLiteral_kind {wt : LType} {f : String} {ps : Params} {lit : Literal}
    (h : resolveParamOrLiteral wt f ps = .ok lit) : kindOf lit = wt := by
  unfold resolveParamOrLiteral at h
  split at h
  · exact resolveLiteral_kind h
  · split at h
    · exact Except.noConfusion h
    · exact readParamValue_kind h

/-- A successful resolveIdentity returns a literal of the wanted kind. -/
theorem resolveIdentity_kind {wt : LType} {e : String} {ps : Params} {lit : Literal}
    (h : resolveIdentity wt e ps = .ok lit) : kindOf lit = wt := by
  unfold resolveIdentity at h
  split at h
  · exact Except.noConfusion h
  · split at h
    · exact Except.noConfusion h
    · exact readParamValue_kind h

/-- A successful resolveTernary returns a literal of the wanted kind. -/
theorem resolveTernary_kind {wt : LType} {e : String} {ps : Params} {lit : Literal}
    (h : resolveTernary wt e ps = .ok lit) : kindOf lit = wt := by
  unfold resolveTernary at h
  split at h
  · exact Except.noConfusion h
  · split at h
    · exact Except.noConfusion h
    · split at h <;> exact resolveParamOrLiteral_kind h

/-- A successful resolveLiteralTernary returns a literal of the wanted
kind. -/
theorem resolveLiteralTernary_kind {wt : LType} {e : String} {ps : Params} {lit : Literal}
    (h : resolveLiteralTernary wt e ps = .ok lit) : kindOf lit = wt := by
  unfold resolveLiteralTernary at h
  split at h
  · exact Except.noConfusion h
  · split at h
    · exact Except.noConfusion h
    · split at h
      · exact Except.noConfusion h
      · split at h <;> exact resolveParamOrLiteral_kind h

/-- C1 (amended): a successful resolveExpression returns a Literal whose
runtime kind equals the wanted type whenever the expression dispatches to
the identity, ternary or literal-ternary shape; when it dispatches to
dual-equality or equality the result kind is always boolean, whatever the
wanted type. -/
theorem c1_result_kind (wt : LType) (expr : String) (ps : Params) (lit : Literal)
    (h : resolveExpression wt expr ps = .ok lit) :
    ((isIdentityExpression expr = true ∨ isTernaryExpression expr = true ∨
      isLiteralTernaryExpression expr = true) → kindOf lit = wt) ∧
    (isIdentityExpression expr = false → isTernaryExpression expr = false →
      isLiteralTernaryExpression expr = false → kindOf lit = LType.boolean) := by
  unfold resolveExpression at h
  split at h
  next h1 =>
    exact ⟨fun _ => resolveIdentity_kind h, fun ha _ _ => absurd h1 (by simp [ha])⟩
  next h1 =>
    split at h
    next h2 =>
      refine ⟨fun _ => resolveTernary_kind h, fun _ hb _ => absurd h2 (by simp [hb])⟩
    next h2 =>
      split at h
      next h3 =>
        refine ⟨fun _ => resolveLiteralTernary_kind h,
          fun _ _ hc => absurd h3 (by simp [hc])⟩
      next h3 =>
        have hbool : kindOf lit = LType.boolean := by
          split at h
          · cases hd : resolveDualEquality expr ps with
            | error e => rw [hd] at h; exact Except.noConfusion h
            | ok b =>
              rw [hd] at h
              simp only [Except.map] at h
              injection h with h
              subst h
              rfl
          · split at h
            · cases hd : resolveEquality expr ps with
              | error e => rw [hd] at h; exact Except.noConfusion h
              | ok b =>
                rw [hd] at h
                simp only [Except.map] at h
                injection h with h
                subst h
                rfl
            · exact Except.noConfusion h
        refine ⟨fun hor => ?_, fun _ _ _ => hbool⟩
        rcases hor with ha | hb | hc
        · exact absurd ha (by simp at h1; simp [h1])
        · exact absurd hb (by simp at h2; simp [h2])
        · exact absurd hc (by simp at h3; simp [h3])

/-- C1 witness: a concrete identity resolution whose result kind is the
wanted kind. -/
theorem c1_result_kind_witness :
    kindOf (Literal.str "bar") = LType.string :=
  (c1_result_kind LType.string "\x7b\x7b params.foo \x7d\x7d"
    (fun n => if n = "foo" then some (pvString "bar") else none) (Literal.str "bar")
    (by rfl)).1 (Or.inl (by rfl))

/-- C1 counterexample: an equality expression resolved with wanted type
string succeeds with a boolean Literal, so the result kind does not equal
the wanted type for all five shapes. -/
theorem c1_counterexample :
    resolveExpression LType.string "\x7b\x7b params.a == \"x\" \x7d\x7d"
      (fun n => if n = "a" then some (pvString "x") else none) =
      .ok (Literal.bool true) ∧
    kindOf (Literal.bool true) ≠ LType.string :=
  ⟨by rfl, by decide⟩

/-- C2: resolveExpression tests the five shapes in the fixed order
identity, ternary, literal-ternary, dual-equality, equality, dispatches to
the resolver of the first matching shape, and fails with the
unsupported-form error when no shape matches. -/
theorem c2_dispatch_order (wt : LType) (expr : String) (ps : Params) :
    (isIdentityExpression expr = true →
      resolveExpression wt expr ps = resolveIdentity wt expr ps) ∧
    (isIdentityExpression expr = false → isTernaryExpression expr = true →
      resolveExpression wt expr ps = resolveTernary wt expr ps) ∧
    (isIdentityExpression expr = false → isTernaryExpression expr = false →
      isLiteralTernaryExpression expr = true →
      resolveExpression wt expr ps = resolveLiteralTernary wt expr ps) ∧
    (isIdentityExpression expr = false → isTernaryExpression expr = false →
      isLiteralTernaryExpression expr = false → isDualEqualityExpression expr = true →
      resolveExpression wt expr ps = (resolveDualEquality expr ps).map Literal.bool) ∧
    (isIdentityExpression expr = false → isTernaryExpression expr = false →
      isLiteralTernaryExpression expr = false → isDualEqualityExpression expr = false →
      isEqualityExpression expr = true →
      resolveExpression wt expr ps = (resolveEquality expr ps).map Literal.bool) ∧
    (isIdentityExpression expr = false → isTernaryExpression expr = false →
      isLiteralTernaryExpression expr = false → isDualEqualityExpression expr = false →
      isEqualityExpression expr = false →
      resolveExpression wt expr ps =
        .error (.firebase ("CEL expression '" ++ expr ++ "' is of an unsupported form"))) := by
  refine ⟨fun h1 => ?_, fun h1 h2 => ?_, fun h1 h2 h3 => ?_, fun h1 h2 h3 h4 => ?_,
    fun h1 h2 h3 h4 h5 => ?_, fun h1 h2 h3 h4 h5 => ?_⟩ <;>
    simp only [resolveExpression, *, if_true, if_false, Bool.false_eq_true, ite_false,
      ite_true]

/-- C2 witness: a string matching none of the five shapes resolves to the
unsupported-form error. -/
theorem c2_dispatch_order_witness :
    resolveExpression LType.string "hello" (fun _ => none) =
      .error (.firebase ("CEL expression 'hello' is of an unsupported form")) :=
  (c2_dispatch_order LType.string "hello" (fun _ => none)).2.2.2.2.2
    (by rfl) (by rfl) (by rfl) (by rfl) (by rfl)

/-- C3: for an equality expression whose left parameter is present, the
resolver infers the type from the first true legality flag in the order
string, number, boolean, coerces the right-hand capture to that type
(propagating any coercion failure), and returns the strict equality of the
accessor value with the coerced literal; it fails with the inference error
when no flag is true. -/
theorem c3_equality_resolution (expr : String) (ps : Params) (caps : List String)
    (hm : execRegex equalityRegexp expr = some caps) (v : ParamValue)
    (hv : ps (caps.getD 0 "") = some v) :
    (v.legalString = true →
      resolveEquality expr ps =
        (resolveLiteral LType.string (caps.getD 1 "")).map
          (fun rhs => jsStrictEq (.str v.asString) rhs)) ∧
    (v.legalString = false → v.legalNumber = true →
      resolveEquality expr ps =
        (resolveLiteral LType.number (caps.getD 1 "")).map
          (fun rhs => jsStrictEq (.num v.asNumber) rhs)) ∧
    (v.legalString = false → v.legalNumber = false → v.legalBoolean = true →
      resolveEquality expr ps =
        (resolveLiteral LType.boolean (caps.getD 1 "")).map
          (fun rhs => jsStrictEq (.bool v.asBoolean) rhs)) ∧
    (v.legalString = false → v.legalNumber = false → v.legalBoolean = false →
      resolveEquality expr ps = .error (.firebase ("could not infer type of param " ++
        caps.getD 0 "" ++ " used in equality operation"))) := by
  refine ⟨fun hS => ?_, fun hS hN => ?_, fun hS hN hB => ?_, fun hS hN hB => ?_⟩
  · simp only [resolveEquality, hm, hv, hS, ite_true]
    cases hr : resolveLiteral LType.string (caps.getD 1 "") <;> simp [hr, Except.map]
  · simp only [resolveEquality, hm, hv, hS, hN, Bool.false_eq_true, ite_true, ite_false]
    cases hr : resolveLiteral LType.number (caps.getD 1 "") <;> simp [hr, Except.map]
  · simp only [resolveEquality, hm, hv, hS, hN, hB, Bool.false_eq_true, ite_true,
      ite_false]
    cases hr : resolveLiteral LType.boolean (caps.getD 1 "") <;> simp [hr, Except.map]
  · simp only [resolveEquality, hm, hv, hS, hN, hB, Bool.false_eq_true, ite_true,
      ite_false]

/-- C3 witness: a concrete string-typed equality that resolves to true. -/
theorem c3_equality_resolution_witness :
    resolveEquality "\x7b\x7b params.a == \"x\" \x7d\x7d"
      (fun n => if n = "a" then some (pvString "x") else none) = .ok true :=
  ((c3_equality_resolution "\x7b\x7b params.a == \"x\" \x7d\x7d"
      (fun n => if n = "a" then some (pvString "x") else none) ["a", "\"x\""]
      (by rfl) (pvString "x") (by rfl)).1 (by rfl)).trans (by rfl)

/-- C4: for a ternary expression, the condition is the equality resolution
of the synthetic equality expression built from the first two captures; a
condition error propagates, a true condition selects the THEN capture and a
false condition the ELSE capture, each resolved by the param-or-literal
rule at the wanted type. -/
theorem c4_ternary_resolution (wt : LType) (expr : String) (ps : Params)
    (caps : List String) (hm : execRegex ternaryRegexp expr = some caps) :
    (∀ e, resolveEquality (syntheticEquality (caps.getD 0 "") (caps.getD 1 "")) ps =
        .error e → resolveTernary wt expr ps = .error e) ∧
    (resolveEquality (syntheticEquality (caps.getD 0 "") (caps.getD 1 "")) ps = .ok true →
      resolveTernary wt expr ps = resolveParamOrLiteral wt (caps.getD 2 "") ps) ∧
    (resolveEquality (syntheticEquality (caps.getD 0 "") (caps.getD 1 "")) ps = .ok false →
      resolveTernary wt expr ps = resolveParamOrLiteral wt (caps.getD 3 "") ps) := by
  refine ⟨fun e he => ?_, fun hc => ?_, fun hc => ?_⟩
  · simp only [resolveTernary, hm, he]
  · simp only [resolveTernary, hm, hc, ite_true]
  · simp only [resolveTernary, hm, hc, Bool.false_eq_true, ite_false]

/-- C4 witness: a concrete ternary whose true condition selects the THEN
branch. -/
theorem c4_ternary_resolution_witness :
    resolveTernary LType.string "\x7b\x7b params.foo == \"x\" ? \"yes\" : \"no\" \x7d\x7d"
      (fun n => if n = "foo" then some (pvString "x") else none) =
      resolveParamOrLiteral LType.string "\"yes\""
        (fun n => if n = "foo" then some (pvString "x") else none) :=
  (c4_ternary_resolution LType.string
    "\x7b\x7b params.foo == \"x\" ? \"yes\" : \"no\" \x7d\x7d"
    (fun n => if n = "foo" then some (pvString "x") else none)
    ["foo", "\"x\"", "\"yes\"", "\"no\""] (by rfl)).2.1 (by rfl)

/-- C5: for a dual-equality expression with both parameters present, the
type is inferred from the left parameter by the flag order string, number,
boolean; when the right parameter lacks the inferred flag the resolution
is exactly the type-mismatch error, and when it carries it the resolution
is the boolean equality of the two accessor values for that type; when the
left parameter has no flag at all the resolution is the inference error. -/
theorem c5_dual_equality_mismatch (expr : String) (ps : Params) (caps : List String)
    (hm : execRegex dualEqualityRegexp expr = some caps) (a b : ParamValue)
    (ha : ps (caps.getD 0 "") = some a) (hb : ps (caps.getD 1 "") = some b) :
    (a.legalString = true → b.legalString = false →
      resolveDualEquality expr ps = .error (.firebase ("CEL equality expression " ++
        expr ++ " has type mismatch between the operands"))) ∧
    (a.legalString = true → b.legalString = true →
      resolveDualEquality expr ps = .ok (a.asString == b.asString)) ∧
    (a.legalString = false → a.legalNumber = true → b.legalNumber = false →
      resolveDualEquality expr ps = .error (.firebase ("CEL equality expression " ++
        expr ++ " has type mismatch between the operands"))) ∧
    (a.legalString = false → a.legalNumber = true → b.legalNumber = true →
      resolveDualEquality expr ps = .ok (jsStrictEqNum a.asNumber b.asNumber)) ∧
    (a.legalString = false → a.legalNumber = false → a.legalBoolean = true →
      b.legalBoolean = false →
      resolveDualEquality expr ps = .error (.firebase ("CEL equality expression " ++
        expr ++ " has type mismatch between the operands"))) ∧
    (a.legalString = false → a.legalNumber = false → a.legalBoolean = true →
      b.legalBoolean = true →
      resolveDualEquality expr ps = .ok (a.asBoolean == b.asBoolean)) ∧
    (a.legalString = false → a.legalNumber = false → a.legalBoolean = false →
      resolveDualEquality expr ps = .error (.firebase ("could not infer type of param " ++
        caps.getD 0 "" ++ " used in equality operation"))) := by
  refine ⟨fun h1 h2 => ?_, fun h1 h2 => ?_, fun h1 h2 h3 => ?_, fun h1 h2 h3 => ?_,
    fun h1 h2 h3 h4 => ?_, fun h1 h2 h3 h4 => ?_, fun h1 h2 h3 => ?_⟩ <;>
    simp only [resolveDualEquality, hm, ha, hb, *, Bool.false_eq_true, Bool.not_true,
      Bool.not_false, ite_true, ite_false]

/-- C5 witness: a concrete dual equality between a string-typed and a
number-typed parameter fails with the type-mismatch error. -/
theorem c5_dual_equality_mismatch_witness :
    resolveDualEquality "\x7b\x7b params.foo == params.bar \x7d\x7d"
      (fun n => if n = "foo" then some (pvString "x")
        else if n = "bar" then some (pvNumber 1) else none) =
      .error (.firebase ("CEL equality expression " ++
        "\x7b\x7b params.foo == params.bar \x7d\x7d" ++
        " has type mismatch between the operands")) :=
  (c5_dual_equality_mismatch "\x7b\x7b params.foo == params.bar \x7d\x7d"
    (fun n => if n = "foo" then some (pvString "x")
      else if n = "bar" then some (pvNumber 1) else none) ["foo", "bar"] (by rfl)
    (pvString "x") (pvNumber 1) (by rfl) (by rfl)).1 (by rfl) (by rfl)

/-- A successful capture loop passes some positive drop of the input, at
most the given bound, to its continuation, and prepends the corresponding
take to the captures it returns. -/
theorem tryCaps_exists {k : List Char → Option (List (List Char))} {s : List Char}
    {i : Nat} {caps : List (List Char)} (h : tryCaps k s i = some caps) :
    ∃ j caps2, 0 < j ∧ j ≤ i ∧ k (s.drop j) = some caps2 ∧ caps = s.take j :: caps2 := by
  induction i with
  | zero => exact absurd h (by simp [tryCaps])
  | succ n ih =>
    unfold tryCaps at h
    cases hk : k (s.drop (n + 1)) with
    | some caps2 =>
      rw [hk] at h
      injection h with h
      exact ⟨n + 1, caps2, Nat.succ_pos n, Nat.le_refl _, hk, h.symm⟩
    | none =>
      rw [hk] at h
      obtain ⟨j, caps2, hj0, hji, hkj, hc⟩ := ih h
      exact ⟨j, caps2, hj0, Nat.le_succ_of_le hji, hkj, hc⟩

/-- Every literal element of a pattern that matches at the start of a
character list is an infix of that list. -/
theorem matchSeq_lit_infix : ∀ (p : List RE) (s : List Char) (caps : List (List Char)),
    matchSeq p s = some caps → ∀ t, RE.lit t ∈ p → t <:+: s := by
  intro p
  induction p with
  | nil => intro s caps _ t ht; exact absurd ht (List.not_mem_nil _)
  | cons e rest ih =>
    intro s caps h t ht
    cases e with
    | lit t2 =>
      simp only [matchSeq] at h
      split at h
      · next hpre =>
        rcases List.mem_cons.mp ht with heq | hmem
        · cases heq
          exact (List.isPrefixOf_iff_prefix.mp hpre).isInfix
        · exact (ih _ _ h t hmem).trans (List.drop_suffix _ _).isInfix
      · exact Option.noConfusion h
    | capNonSpace =>
      simp only [matchSeq] at h
      obtain ⟨j, caps2, _, _, hkj, _⟩ := tryCaps_exists h
      rcases List.mem_cons.mp ht with heq | hmem
      · exact RE.noConfusion heq
      · exact (ih _ _ hkj t hmem).trans (List.drop_suffix _ _).isInfix
    | capAny =>
      simp only [matchSeq] at h
      obtain ⟨j, caps2, _, _, hkj, _⟩ := tryCaps_exists h
      rcases List.mem_cons.mp ht with heq | hmem
      · exact RE.noConfusion heq
      · exact (ih _ _ hkj t hmem).trans (List.drop_suffix _ _).isInfix

/-- Every literal element of a pattern found anywhere in a character list
by the unanchored search is an infix of that list. -/
theorem execSeq_lit_infix (p : List RE) : ∀ (s : List Char) (caps : List (List Char)),
    execSeq p s = some caps → ∀ t, RE.lit t ∈ p → t <:+: s := by
  intro s
  induction s with
  | nil => intro caps h t ht; exact matchSeq_lit_infix p [] caps h t ht
  | cons c rest ih =>
    intro caps h t ht
    simp only [execSeq] at h
    cases hm : matchSeq p (c :: rest) with
    | some caps2 => exact matchSeq_lit_infix _ _ _ hm t ht
    | none =>
      rw [hm] at h
      exact (ih _ h t ht).trans (List.suffix_cons c rest).isInfix

/-- Unfolding of resolveLiteral at wanted type number. -/
theorem resolveLiteral_number (value : String) :
    resolveLiteral LType.number value =
      match execRegex paramRegexp value with
      | some _ => .error (.firebase ("CEL tried to evaluate param." ++ value ++
          " in a context which only permits literal values"))
      | none =>
        match toNumber value with
        | .nan => .error (.firebase ("CEL literal " ++ value ++
            " does not seem to be a number"))
        | n => .ok (.num n) := by
  unfold resolveLiteral
  cases execRegex paramRegexp value <;> rfl

/-- Unfolding of resolveLiteral at wanted type string. -/
theorem resolveLiteral_string (value : String) :
    resolveLiteral LType.string value =
      match execRegex paramRegexp value with
      | some _ => .error (.firebase ("CEL tried to evaluate param." ++ value ++
          " in a context which only permits literal values"))
      | none =>
        if ("\"".data).isPrefixOf value.data && ("\"".data).isSuffixOf value.data then
          .ok (.str (String.mk ((value.data.drop 1).dropLast)))
        else
          .error (.firebase ("CEL literal " ++ value ++
            " does not seem to be a \"-delimited string")) := by
  unfold resolveLiteral
  cases execRegex paramRegexp value <;> rfl

/-- Unfolding of resolveLiteral at wanted type boolean. -/
theorem resolveLiteral_boolean (value : String) :
    resolveLiteral LType.boolean value =
      match execRegex paramRegexp value with
      | some _ => .error (.firebase ("CEL tried to evaluate param." ++ value ++
          " in a context which only permits literal values"))
      | none =>
        if value = "true" then .ok (.bool true)
        else if value = "false" then .ok (.bool false)
        else .error (.firebase ("CEL literal " ++ value ++
          "does not seem to be a true/false boolean")) := by
  unfold resolveLiteral
  cases execRegex paramRegexp value <;> rfl

/-- C6: at the failing input, a ternary branch that references a parameter
absent from the table makes resolution fail with the modelled runtime
TypeError of reading a legality flag of undefined, not with a descriptive
unresolvable-reference FirebaseError: the source's resolveParamOrLiteral
passes the undefined table entry straight into readParamValue without the
missing-parameter check every other resolver performs. -/
theorem c6_absent_branch_param_crash :
    resolveExpression LType.string
      "\x7b\x7b params.cond ? params.missing : \"x\" \x7d\x7d"
      (fun n => if n = "cond" then some (pvBoolean true) else none) =
      .error (.typeError ("Cannot read properties of undefined (reading legalString)")) ∧
    ∀ msg, resolveExpression LType.string
      "\x7b\x7b params.cond ? params.missing : \"x\" \x7d\x7d"
      (fun n => if n = "cond" then some (pvBoolean true) else none) ≠
      .error (.firebase msg) := by
  refine ⟨by decide, fun msg h => ?_⟩
  rw [show resolveExpression LType.string
      "\x7b\x7b params.cond ? params.missing : \"x\" \x7d\x7d"
      (fun n => if n = "cond" then some (pvBoolean true) else none) =
      .error (.typeError ("Cannot read properties of undefined (reading legalString)"))
    from by decide] at h
  injection h with h
  exact CelError.noConfusion h

/-- Whitespace-only text cannot contain the parameter-reference pattern:
its literal part starts with a letter, which is not whitespace. -/
theorem execRegex_param_none_of_whitespace (value : String)
    (hall : value.data.all jsWhitespace = true) :
    execRegex paramRegexp value = none := by
  cases hx : execSeq paramRegexp value.data with
  | none => simp [execRegex, hx]
  | some caps =>
    exfalso
    have hinf : ("params.".data) <:+: value.data :=
      execSeq_lit_infix _ _ _ hx _ (by simp [paramRegexp])
    have hp : 'p' ∈ value.data := hinf.subset (by decide)
    have := (List.all_eq_true.mp hall) 'p' hp
    exact absurd this (by decide)

/-- ToNumber of whitespace-only text is zero: trimming removes every
character and the empty remainder converts to zero. -/
theorem toNumber_whitespace (value : String)
    (hall : value.data.all jsWhitespace = true) : toNumber value = .num 0 := by
  have h1 : value.data.dropWhile jsWhitespace = [] := by
    rw [List.dropWhile_eq_nil_iff]
    exact fun x hx => (List.all_eq_true.mp hall) x hx
  simp [toNumber, trimJs, h1]

/-- C8 (amended): number coercion maps whitespace-only (in particular
empty) text to the number zero, fails exactly on text whose ToNumber value
is NaN (given that the text is not a parameter reference, which fails
first), and on success returns exactly the ToNumber value of the text. -/
theorem c8_number_coercion (value : String) :
    (value.data.all jsWhitespace = true →
      resolveLiteral LType.number value = .ok (.num (.num 0))) ∧
    (execRegex paramRegexp value = none → toNumber value = .nan →
      resolveLiteral LType.number value =
        .error (.firebase ("CEL literal " ++ value ++ " does not seem to be a number"))) ∧
    (∀ lit, resolveLiteral LType.number value = .ok lit →
      lit = .num (toNumber value) ∧ toNumber value ≠ .nan) ∧
    (execRegex paramRegexp value = none → toNumber value ≠ .nan →
      resolveLiteral LType.number value = .ok (.num (toNumber value))) := by
  refine ⟨fun hall => ?_, fun hnone hnan => ?_, fun lit h => ?_, fun hnone hnn => ?_⟩
  · have hnone := execRegex_param_none_of_whitespace value hall
    have hnum := toNumber_whitespace value hall
    simp [resolveLiteral, hnone, hnum]
  · simp [resolveLiteral, hnone, hnan]
  · rw [resolveLiteral_number] at h
    split at h
    · exact Except.noConfusion h
    · split at h
      · exact Except.noConfusion h
      · next hne =>
        injection h with h
        subst h
        exact ⟨rfl, hne⟩
  · rw [resolveLiteral_number, hnone]
    split
    · next heq => exact Option.noConfusion heq
    · split
      · next hnan => exact absurd hnan hnn
      · rfl

/-- C8 witness: whitespace-only text coerces to the number zero. -/
theorem c8_number_coercion_witness :
    resolveLiteral LType.number "  " = .ok (.num (.num 0)) :=
  (c8_number_coercion "  ").1 (by decide)

/-- C8 counterexample: the empty fragment does not fail number coercion as
the claim states; it succeeds with the number zero, because the JavaScript
ToNumber conversion maps the empty string to zero and the NaN guard of the
source therefore does not fire. -/
theorem c8_counterexample :
    resolveLiteral LType.number "" = .ok (.num (.num 0)) := by rfl

/-- C7 (amended): string coercion succeeds exactly when the text contains
no parameter reference, starts with a double quote and ends with a double
quote; the two delimiters need not be distinct characters, so the
single-character double-quote text succeeds; on success the result is the
text with its first and last characters removed, with no escape
processing. -/
theorem c7_string_coercion (value : String) :
    ((∃ s, resolveLiteral LType.string value = .ok (.str s)) ↔
      (execRegex paramRegexp value = none ∧
        ("\"".data).isPrefixOf value.data = true ∧
        ("\"".data).isSuffixOf value.data = true)) ∧
    (∀ lit, resolveLiteral LType.string value = .ok lit →
      lit = .str (String.mk ((value.data.drop 1).dropLast))) := by
  constructor
  · constructor
    · rintro ⟨s, hs⟩
      rw [resolveLiteral_string] at hs
      split at hs
      · exact Except.noConfusion hs
      · next hnone =>
        split at hs
        · next hcond =>
          rw [Bool.and_eq_true] at hcond
          exact ⟨hnone, hcond.1, hcond.2⟩
        · exact Except.noConfusion hs
    · rintro ⟨hnone, hpre, hsuf⟩
      refine ⟨String.mk ((value.data.drop 1).dropLast), ?_⟩
      rw [resolveLiteral_string, hnone]
      simp [hpre, hsuf]
  · intro lit h
    rw [resolveLiteral_string] at h
    split at h
    · exact Except.noConfusion h
    · split at h
      · injection h with h
        exact h.symm
      · exact Except.noConfusion h

/-- C7 witness: a concrete quoted text coerces to its quote-stripped
form. -/
theorem c7_string_coercion_witness :
    Literal.str "abc" = .str (String.mk ((("\"abc\"" : String).data.drop 1).dropLast)) :=
  (c7_string_coercion "\"abc\"").2 (Literal.str "abc") (by rfl)

/-- C7 counterexample: the single-character double-quote text has length
one, yet string coercion succeeds on it with the empty string, so it is
false that every fragment of length less than two fails. -/
theorem c7_counterexample :
    ("\"" : String).length = 1 ∧ resolveLiteral LType.string "\"" = .ok (.str "") :=
  ⟨by rfl, by rfl⟩

/-- C9 (amended): the identity, equality and dual-equality patterns demand
the two-character close marker, so any string matching one of those three
shapes contains the close marker as an infix; but the ternary and
literal-ternary patterns end with a single closing brace, so a string
ending in a single brace can still match the ternary shape. -/
theorem c9_close_marker_shapes :
    (∀ s : String, isIdentityExpression s = true ∨ isEqualityExpression s = true ∨
      isDualEqualityExpression s = true → (" \x7d\x7d".data) <:+: s.data) ∧
    isTernaryExpression "\x7b\x7b params.a == 1 ? 2 : 3 \x7d" = true ∧
    ("\x7d\x7d".data).isSuffixOf ("\x7b\x7b params.a == 1 ? 2 : 3 \x7d".data) = false := by
  refine ⟨fun s hs => ?_, by rfl, by rfl⟩
  have get : ∀ (p : List RE), (execRegex p s).isSome = true →
      RE.lit (" \x7d\x7d".data) ∈ p → (" \x7d\x7d".data) <:+: s.data := by
    intro p hp hmem
    unfold execRegex at hp
    cases hx : execSeq p s.data with
    | none => rw [hx] at hp; simp at hp
    | some caps => exact execSeq_lit_infix _ _ _ hx _ hmem
  rcases hs with h | h | h
  · exact get identityRegexp h (by simp [identityRegexp])
  · exact get equalityRegexp h (by simp [equalityRegexp])
  · exact get dualEqualityRegexp h (by simp [dualEqualityRegexp])

/-- C9 counterexample: a concrete string that ends in a single closing
brace, not the two-character marker, yet matches the ternary shape and
resolves successfully, so it is false that such a string matches none of
the five shapes. -/
theorem c9_counterexample :
    ("\x7d".data).isSuffixOf ("\x7b\x7b params.a == 1 ? 2 : 3 \x7d".data) = true ∧
    ("\x7d\x7d".data).isSuffixOf ("\x7b\x7b params.a == 1 ? 2 : 3 \x7d".data) = false ∧
    isTernaryExpression "\x7b\x7b params.a == 1 ? 2 : 3 \x7d" = true ∧
    resolveExpression LType.number "\x7b\x7b params.a == 1 ? 2 : 3 \x7d"
      (fun n => if n = "a" then some (pvNumber 1) else none) = .ok (.num (.num 2)) := by
  exact ⟨by rfl, by rfl, by rfl, by decide⟩

/-- A run length never exceeds the length of the list. -/
theorem runLen_le (p : Char → Bool) : ∀ l : List Char, runLen p l ≤ l.length := by
  intro l
  induction l with
  | nil => exact Nat.le_refl 0
  | cons c t ih =>
    simp only [runLen, List.length_cons]
    split
    · exact Nat.succ_le_succ ih
    · exact Nat.zero_le _

/-- The run prefix consists of characters satisfying the predicate. -/
theorem take_runLen_all (p : Char → Bool) : ∀ l : List Char,
    (l.take (runLen p l)).all p = true := by
  intro l
  induction l with
  | nil => rfl
  | cons c t ih =>
    simp only [runLen]
    split
    · next hc => simp [List.take_succ_cons, hc, ih]
    · simp

/-- A positive run length means the list starts with a character satisfying
the predicate. -/
theorem runLen_pos (p : Char → Bool) {l : List Char} (h : 0 < runLen p l) :
    ∃ c t, l = c :: t ∧ p c = true := by
  cases l with
  | nil => exact absurd h (by simp [runLen])
  | cons c t =>
    simp only [runLen] at h
    split at h
    · next hc => exact ⟨c, t, rfl, hc⟩
    · exact absurd h (by simp)

/-- The capture loop whose continuation always succeeds with no further
captures succeeds exactly when its bound is positive. -/
theorem tryCaps_const_isSome (k : List Char → Option (List (List Char)))
    (hk : ∀ x, k x = some []) (u : List Char) (i : Nat) :
    (tryCaps k u i).isSome = true ↔ 0 < i := by
  cases i with
  | zero => simp [tryCaps]
  | succ n => simp [tryCaps, hk]

/-- The capture loop whose continuation always succeeds with no further
captures takes the maximal capture immediately. -/
theorem tryCaps_const_succ (k : List Char → Option (List (List Char)))
    (hk : ∀ x, k x = some []) (u : List Char) (n : Nat) :
    tryCaps k u (n + 1) = some [u.take (n + 1)] := by
  simp [tryCaps, hk]

/-- The parameter-reference pattern matches at the start of a character
list exactly when the list starts with the literal part and at least one
non-whitespace character follows it. -/
theorem matchSeq_param_iff (s : List Char) :
    (matchSeq paramRegexp s).isSome = true ↔
      ("params.".data).isPrefixOf s = true ∧
        0 < runLen jsNonSpace (s.drop ("params.".data).length) := by
  simp only [paramRegexp, matchSeq]
  split
  · next hpre =>
    rw [tryCaps_const_isSome _ (fun x => rfl)]
    simp [hpre]
  · next hpre =>
    simp only [Option.isSome_none, Bool.false_eq_true, false_iff]
    intro hcon
    exact hpre hcon.1

/-- The pattern matching at the start determines the capture: the text
after the literal part, cut at its maximal non-whitespace run. -/
theorem matchSeq_param_caps {s : List Char} {caps : List (List Char)}
    (h : matchSeq paramRegexp s = some caps) :
    ∃ rest, ("params.".data) ++ rest = s ∧
      caps = [rest.take (runLen jsNonSpace rest)] ∧ 0 < runLen jsNonSpace rest := by
  simp only [paramRegexp, matchSeq] at h
  split at h
  · next hpre =>
    obtain ⟨rest, hre⟩ := List.isPrefixOf_iff_prefix.mp hpre
    have hdrop : s.drop ("params.".data).length = rest := by
      rw [← hre]
      exact List.drop_left _ _
    rw [hdrop] at h
    cases hr : runLen jsNonSpace rest with
    | zero => rw [hr] at h; exact absurd h (by simp [tryCaps])
    | succ n =>
      rw [hr, tryCaps_const_succ _ (fun x => rfl)] at h
      injection h with h
      exact ⟨rest, hre, by rw [← h, hr], by omega⟩
  · exact Option.noConfusion h

/-- The unanchored search for the parameter-reference pattern succeeds
exactly when the text contains the literal part followed directly by at
least one non-whitespace character. -/
theorem execSeq_param_iff : ∀ s : List Char,
    (execSeq paramRegexp s).isSome = true ↔
      ∃ pre c post, s = pre ++ ("params.".data) ++ c :: post ∧ jsNonSpace c = true := by
  intro s
  induction s with
  | nil =>
    constructor
    · intro h; exact absurd h (by decide)
    · rintro ⟨pre, c, post, heq, -⟩
      exact absurd heq (by simp)
  | cons a t ih =>
    simp only [execSeq]
    cases hm : matchSeq paramRegexp (a :: t) with
    | some caps =>
      simp only [Option.isSome_some, true_iff]
      obtain ⟨hpre, hpos⟩ := (matchSeq_param_iff (a :: t)).mp (by rw [hm]; rfl)
      obtain ⟨rest, hre⟩ := List.isPrefixOf_iff_prefix.mp hpre
      have hdrop : (a :: t).drop ("params.".data).length = rest := by
        rw [← hre]
        exact List.drop_left _ _
      rw [hdrop] at hpos
      obtain ⟨c, post, hrest, hc⟩ := runLen_pos _ hpos
      refine ⟨[], c, post, ?_, hc⟩
      rw [← hre, hrest]
      rfl
    | none =>
      rw [ih]
      constructor
      · rintro ⟨pre, c, post, heq, hc⟩
        exact ⟨a :: pre, c, post, by rw [heq]; rfl, hc⟩
      · rintro ⟨pre, c, post, heq, hc⟩
        cases pre with
        | nil =>
          exfalso
          have hp : (matchSeq paramRegexp (a :: t)).isSome = true := by
            rw [matchSeq_param_iff]
            constructor
            · rw [heq]
              exact List.isPrefixOf_iff_prefix.mpr ⟨c :: post, by simp⟩
            · rw [heq]
              have hd : (([] ++ ("params.".data) ++ c :: post) : List Char).drop
                  ("params.".data).length = c :: post := by
                rw [List.nil_append]
                exact List.drop_left _ _
              rw [hd]
              simp [runLen, hc]
          rw [hm] at hp
          exact absurd hp (by simp)
        | cons a2 pre2 =>
          injection heq with h1 h2
          exact ⟨pre2, c, post, h2, hc⟩

/-- The unanchored search determines the capture: some occurrence of the
literal part, followed by the captured non-empty non-whitespace run, which
is maximal at its position. -/
theorem execSeq_param_caps : ∀ (s : List Char) (caps : List (List Char)),
    execSeq paramRegexp s = some caps →
    ∃ pre rest, s = pre ++ ("params.".data) ++ rest ∧
      caps = [rest.take (runLen jsNonSpace rest)] ∧ 0 < runLen jsNonSpace rest := by
  intro s
  induction s with
  | nil =>
    intro caps h
    rw [show execSeq paramRegexp [] = none from rfl] at h
    exact Option.noConfusion h
  | cons a t ih =>
    intro caps h
    simp only [execSeq] at h
    cases hm : matchSeq paramRegexp (a :: t) with
    | some caps2 =>
      rw [hm] at h
      injection h with h
      subst h
      obtain ⟨rest, hre, hcaps, hpos⟩ := matchSeq_param_caps hm
      exact ⟨[], rest, by rw [← hre]; rfl, hcaps, hpos⟩
    | none =>
      rw [hm] at h
      obtain ⟨pre, rest, heq, hcaps, hpos⟩ := ih caps h
      exact ⟨a :: pre, rest, by rw [heq]; rfl, hcaps, hpos⟩

/-- C10: a text fragment is classified as a parameter reference exactly
when it contains the literal params-dot text followed directly by a
non-whitespace character anywhere inside it; every fragment so classified
fails literal coercion at every wanted type; the param-or-literal rule
resolves such a fragment as a table lookup of the captured name, which is
a non-empty non-whitespace run following an occurrence of the params-dot
text; and concretely a double-quoted parameter reference is never accepted
as a string literal. -/
theorem c10_param_reference_classification (field : String) :
    ((execRegex paramRegexp field).isSome = true ↔
      ∃ pre c post, field.data = pre ++ ("params.".data) ++ c :: post ∧
        jsNonSpace c = true) ∧
    (∀ wt, (execRegex paramRegexp field).isSome = true →
      resolveLiteral wt field = .error (.firebase ("CEL tried to evaluate param." ++
        field ++ " in a context which only permits literal values"))) ∧
    (∀ wt (ps : Params) caps, execRegex paramRegexp field = some caps →
      (ps (caps.getD 0 "") = none →
        resolveParamOrLiteral wt field ps =
          .error (.typeError ("Cannot read properties of undefined (reading " ++
            flagName wt ++ ")"))) ∧
      (∀ v, ps (caps.getD 0 "") = some v →
        resolveParamOrLiteral wt field ps = readParamValue wt (caps.getD 0 "") v)) ∧
    (∀ caps, execRegex paramRegexp field = some caps →
      ∃ pre post, field.data = pre ++ ("params.".data) ++ (caps.getD 0 "").data ++ post ∧
        (caps.getD 0 "").data ≠ [] ∧ (caps.getD 0 "").data.all jsNonSpace = true) ∧
    resolveLiteral LType.string "\"params.x\"" =
      .error (.firebase ("CEL tried to evaluate param." ++ "\"params.x\"" ++
        " in a context which only permits literal values")) := by
  refine ⟨?_, ?_, ?_, ?_, by rfl⟩
  · have h1 : (execRegex paramRegexp field).isSome =
        (execSeq paramRegexp field.data).isSome := by
      unfold execRegex
      cases execSeq paramRegexp field.data <;> rfl
    rw [h1]
    exact execSeq_param_iff field.data
  · intro wt hits
    cases hx : execRegex paramRegexp field with
    | none => rw [hx] at hits; exact absurd hits (by simp)
    | some caps => simp only [resolveLiteral, hx]
  · intro wt ps caps hcaps
    constructor
    · intro hnone
      simp only [resolveParamOrLiteral, hcaps, hnone]
    · intro v hv
      simp only [resolveParamOrLiteral, hcaps, hv]
  · intro caps hcaps
    unfold execRegex at hcaps
    cases hx : execSeq paramRegexp field.data with
    | none => rw [hx] at hcaps; exact Option.noConfusion hcaps
    | some lcaps =>
      rw [hx] at hcaps
      injection hcaps with hcaps
      obtain ⟨pre, rest, heq, hc, hpos⟩ := execSeq_param_caps field.data lcaps hx
      subst hcaps
      refine ⟨pre, rest.drop (runLen jsNonSpace rest), ?_, ?_, ?_⟩
      · rw [heq, hc]
        simp only [List.map_cons, List.map_nil, List.getD_cons_zero]
        simp [List.append_assoc, List.take_append_drop]
      · rw [hc]
        simp only [List.map_cons, List.map_nil, List.getD_cons_zero]
        intro hnil
        have hlen : (rest.take (runLen jsNonSpace rest)).length =
            runLen jsNonSpace rest := by
          rw [List.length_take]
          exact Nat.min_eq_left (runLen_le _ _)
        rw [hnil] at hlen
        simp at hlen
        omega
      · rw [hc]
        simp only [List.map_cons, List.map_nil, List.getD_cons_zero]
        exact take_runLen_all _ _

/-- C10 witness: a concrete parameter reference rejected by the literal
coercer. -/
theorem c10_param_reference_classification_witness :
    resolveLiteral LType.number "params.x" =
      .error (.firebase ("CEL tried to evaluate param." ++ "params.x" ++
        " in a context which only permits literal values")) :=
  (c10_param_reference_classification "params.x").2.1 LType.number (by rfl)
